import Mathlib

/-!
Verification development for the registry-creds reconciliation controller
(`aws_credentials.go`). The Go program is shallowly embedded: the cluster
store is a pair of partial maps (secrets and service accounts keyed by
namespace and object name) together with the list of namespaces; each Go
store call becomes an explicit operation that may be forced to fail through
a `Faults` oracle, and the controller's `process` function is translated
branch by branch. A run returns its outcome, the resulting store, and a
trace of the store operations it issued.
-/

namespace RegistryCreds

/-- AuthToken from the source: access token plus registry endpoint. -/
structure AuthToken where
  accessToken : String
  endpoint : String
deriving DecidableEq

/-- Result of calling a TokenGenFxn. `crash` models a Go runtime panic
inside the provider (index out of range), which aborts the whole process
rather than returning an error value. -/
inductive FetchResult where
  | ok (t : AuthToken)
  | err (e : String)
  | crash
deriving DecidableEq

/-- One element of the ECR GetAuthorizationToken response. -/
structure AuthorizationData where
  authorizationToken : String
  proxyEndpoint : String
deriving DecidableEq

/-- ECR GetAuthorizationToken response body. -/
structure GetAuthorizationTokenOutput where
  authorizationData : List AuthorizationData
deriving DecidableEq

/-- controller.getECRAuthorizationKey: on a remote error the error is
returned; otherwise the code evaluates `resp.AuthorizationData[0]`
unconditionally, which in Go panics when the slice is empty (`crash`);
with at least one entry the first entry's token and proxy endpoint are
returned and the rest are ignored. -/
def getECRAuthorizationKey (resp : Except String GetAuthorizationTokenOutput) : FetchResult :=
  match resp with
  | Except.error e => FetchResult.err e
  | Except.ok r =>
    match r.authorizationData with
    | [] => FetchResult.crash
    | token :: _ => FetchResult.ok ⟨token.authorizationToken, token.proxyEndpoint⟩

/-- OAuth2 token as seen by getGCRAuthorizationKey: its access token, the
result of Valid(), and the result of Type(). -/
structure OAuthToken where
  accessToken : String
  valid : Bool
  tokenType : String
deriving DecidableEq

/-- controller.getGCRAuthorizationKey: DefaultTokenSource may fail, then
Token() may fail, then Valid() and Type() == "Bearer" are checked; on
success the endpoint is the configured GCR URL. The environment is the
nested result of DefaultTokenSource and Token(). -/
def getGCRAuthorizationKey (gcrURL : String)
    (dts : Except String (Except String OAuthToken)) : FetchResult :=
  match dts with
  | Except.error e => FetchResult.err e
  | Except.ok tokenRes =>
    match tokenRes with
    | Except.error e => FetchResult.err e
    | Except.ok token =>
      if !token.valid then FetchResult.err "token was invalid"
      else if token.tokenType != "Bearer" then
        FetchResult.err ("expected token type \"Bearer\" but got \"" ++ token.tokenType ++ "\"")
      else FetchResult.ok ⟨token.accessToken, gcrURL⟩

/-- dockerCfgTemplate applied as in the source:
fmt.Sprintf(template, endpoint, token). -/
def dockerCfgTemplate (endpoint token : String) : String :=
  "\x7b\"" ++ endpoint ++ "\":\x7b\"username\":\"oauth2accesstoken\",\"password\":\""
    ++ token ++ "\",\"email\":\"none\"\x7d\x7d"

/-- dockerJSONTemplate applied as in the source:
fmt.Sprintf(template, endpoint, token). -/
def dockerJSONTemplate (endpoint token : String) : String :=
  "\x7b\"auths\":\x7b\"" ++ endpoint ++ "\":\x7b\"auth\":\"" ++ token
    ++ "\",\"email\":\"none\"\x7d\x7d\x7d"

/-- api.Secret as used by the program: object name, data map (a single
key here), and the secret type tag. -/
structure ApiSecret where
  name : String
  data : List (String × String)
  type : String
deriving DecidableEq

/-- generateSecretObj from the source, total in all arguments. -/
def generateSecretObj (token endpoint : String) (isJSONCfg : Bool)
    (secretName : String) : ApiSecret :=
  if isJSONCfg then
    ⟨secretName, [(".dockerconfigjson", dockerJSONTemplate endpoint token)],
      "kubernetes.io/dockerconfigjson"⟩
  else
    ⟨secretName, [(".dockercfg", dockerCfgTemplate endpoint token)],
      "kubernetes.io/dockercfg"⟩

/-- api.LocalObjectReference: a name-only reference. -/
structure LocalObjectReference where
  name : String
deriving DecidableEq

/-- api.ServiceAccount restricted to the field the program touches. -/
structure ServiceAccount where
  imagePullSecrets : List LocalObjectReference
deriving DecidableEq

/-- The cluster store: the namespace list and two maps keyed by
(namespace, object name). -/
structure Store where
  namespaces : List String
  secrets : String → String → Option ApiSecret
  serviceAccounts : String → String → Option ServiceAccount

/-- Fault oracle: which store calls fail with an unexpected error. -/
structure Faults where
  listNamespacesFault : Bool
  getSecretFault : String → String → Bool
  createSecretFault : String → Bool
  updateSecretFault : String → Bool
  getServiceAccountFault : String → String → Bool
  updateServiceAccountFault : String → Bool

def lookupSecret (s : Store) (ns n : String) : Option ApiSecret :=
  s.secrets ns n

def lookupServiceAccount (s : Store) (ns n : String) : Option ServiceAccount :=
  s.serviceAccounts ns n

def putSecret (s : Store) (ns : String) (sec : ApiSecret) : Store :=
  ⟨s.namespaces,
    fun a b => if a = ns ∧ b = sec.name then some sec else s.secrets a b,
    s.serviceAccounts⟩

def putServiceAccount (s : Store) (ns n : String) (sa : ServiceAccount) : Store :=
  ⟨s.namespaces, s.secrets,
    fun a b => if a = ns ∧ b = n then some sa else s.serviceAccounts a b⟩

/-- Secrets(ns).Get: an injected fault yields an unexpected store error,
otherwise absence yields the not-found error. -/
def storeGetSecret (f : Faults) (s : Store) (ns n : String) : Except String ApiSecret :=
  if f.getSecretFault ns n then Except.error "InternalError"
  else
    match lookupSecret s ns n with
    | some sec => Except.ok sec
    | none => Except.error "NotFound"

/-- Secrets(ns).Create: fails on fault or when the object already exists. -/
def storeCreateSecret (f : Faults) (s : Store) (ns : String) (sec : ApiSecret) :
    Except String Store :=
  if f.createSecretFault ns then Except.error "InternalError"
  else
    match lookupSecret s ns sec.name with
    | some _ => Except.error "AlreadyExists"
    | none => Except.ok (putSecret s ns sec)

/-- Secrets(ns).Update: fails on fault or when the object is absent;
otherwise fully replaces the stored object. -/
def storeUpdateSecret (f : Faults) (s : Store) (ns : String) (sec : ApiSecret) :
    Except String Store :=
  if f.updateSecretFault ns then Except.error "InternalError"
  else
    match lookupSecret s ns sec.name with
    | some _ => Except.ok (putSecret s ns sec)
    | none => Except.error "NotFound"

/-- ServiceAccounts(ns).Get. -/
def storeGetServiceAccount (f : Faults) (s : Store) (ns n : String) :
    Except String ServiceAccount :=
  if f.getServiceAccountFault ns n then Except.error "InternalError"
  else
    match lookupServiceAccount s ns n with
    | some sa => Except.ok sa
    | none => Except.error "NotFound"

/-- ServiceAccounts(ns).Update. -/
def storeUpdateServiceAccount (f : Faults) (s : Store) (ns n : String)
    (sa : ServiceAccount) : Except String Store :=
  if f.updateServiceAccountFault ns then Except.error "InternalError"
  else
    match lookupServiceAccount s ns n with
    | some _ => Except.ok (putServiceAccount s ns n sa)
    | none => Except.error "NotFound"

/-- Store operations the controller can issue, recorded in run traces. -/
inductive KubeOp where
  | listNamespaces
  | getSecret (ns n : String)
  | createSecret (ns : String) (sec : ApiSecret)
  | updateSecret (ns : String) (sec : ApiSecret)
  | getServiceAccount (ns n : String)
  | updateServiceAccount (ns : String) (sa : ServiceAccount)
deriving DecidableEq

/-- The namespace a store operation is scoped to (none for the
cluster-wide namespace list). -/
def KubeOp.targetNamespace : KubeOp → Option String
  | KubeOp.listNamespaces => none
  | KubeOp.getSecret ns _ => some ns
  | KubeOp.createSecret ns _ => some ns
  | KubeOp.updateSecret ns _ => some ns
  | KubeOp.getServiceAccount ns _ => some ns
  | KubeOp.updateServiceAccount ns _ => some ns

/-- Result of a store-touching step: the error if any, the store after the
step, and the operations issued. -/
structure StepResult where
  err : Option String
  store : Store
  trace : List KubeOp

/-- Lines 239-254 of the source: get the secret by the generator's name;
ANY error from Get (the code only tests err != nil) takes the create
branch, a successful Get takes the update branch; the Get error itself is
never returned. -/
def secretPhase (f : Faults) (secretName : String) (newSecret : ApiSecret)
    (ns : String) (s : Store) : StepResult :=
  match storeGetSecret f s ns secretName with
  | Except.error _ =>
    match storeCreateSecret f s ns newSecret with
    | Except.error e => ⟨some e, s, [KubeOp.getSecret ns secretName, KubeOp.createSecret ns newSecret]⟩
    | Except.ok s' => ⟨none, s', [KubeOp.getSecret ns secretName, KubeOp.createSecret ns newSecret]⟩
  | Except.ok _ =>
    match storeUpdateSecret f s ns newSecret with
    | Except.error e => ⟨some e, s, [KubeOp.getSecret ns secretName, KubeOp.updateSecret ns newSecret]⟩
    | Except.ok s' => ⟨none, s', [KubeOp.getSecret ns secretName, KubeOp.updateSecret ns newSecret]⟩

/-- Lines 263-276 of the source: scan the image-pull-secret list; the
first entry whose name matches is overwritten in place with a reference of
that same name and the scan breaks; if no entry matches, a reference is
appended at the end. -/
def upsertRefs : List LocalObjectReference → String → List LocalObjectReference
  | [], n => [⟨n⟩]
  | r :: rs, n => if r.name == n then ⟨n⟩ :: rs else r :: upsertRefs rs n

/-- Lines 256-281 of the source: get the default service account (any
error aborts), rewrite its image-pull-secret list, write it back. -/
def saPhase (f : Faults) (secretName : String) (ns : String) (s : Store) : StepResult :=
  match storeGetServiceAccount f s ns "default" with
  | Except.error e => ⟨some e, s, [KubeOp.getServiceAccount ns "default"]⟩
  | Except.ok sa =>
    let sa' : ServiceAccount := ⟨upsertRefs sa.imagePullSecrets secretName⟩
    match storeUpdateServiceAccount f s ns "default" sa' with
    | Except.error e =>
      ⟨some e, s, [KubeOp.getServiceAccount ns "default", KubeOp.updateServiceAccount ns sa']⟩
    | Except.ok s' =>
      ⟨none, s', [KubeOp.getServiceAccount ns "default", KubeOp.updateServiceAccount ns sa']⟩

/-- The per-namespace body of the loop at lines 239-281: the secret phase
runs first; only if it succeeds is the service account looked up and
rewritten. An error leaves the store as the failing phase left it (the
freshly written secret is never rolled back). -/
def reconcileNamespace (f : Faults) (secretName : String) (newSecret : ApiSecret)
    (ns : String) (s : Store) : StepResult :=
  match secretPhase f secretName newSecret ns s with
  | ⟨some e, st, tr⟩ => ⟨some e, st, tr⟩
  | ⟨none, st, tr⟩ =>
    match saPhase f secretName ns st with
    | ⟨e₂, st₂, tr₂⟩ => ⟨e₂, st₂, tr ++ tr₂⟩

/-- The namespace loop at lines 233-282: namespaces named "kube-system"
are skipped before any store access; the first error from a namespace
aborts the remaining iterations. -/
def processNamespaces (f : Faults) (secretName : String) (newSecret : ApiSecret) :
    List String → Store → StepResult
  | [], s => ⟨none, s, []⟩
  | ns :: rest, s =>
    if ns = "kube-system" then processNamespaces f secretName newSecret rest s
    else
      match reconcileNamespace f secretName newSecret ns s with
      | ⟨some e, st, tr⟩ => ⟨some e, st, tr⟩
      | ⟨none, st, tr⟩ =>
        match processNamespaces f secretName newSecret rest st with
        | ⟨e₂, st₂, tr₂⟩ => ⟨e₂, st₂, tr ++ tr₂⟩

/-- SecretGenerator from the source; the token function is represented by
the result its provider yields in this run. -/
structure SecretGenerator where
  tokenGenFxn : FetchResult
  isJSONCfg : Bool
  secretName : String

/-- Outcome of a run of process: normal success, an error return, or a Go
panic propagating out. -/
inductive Outcome where
  | success
  | failure (e : String)
  | crashed
deriving DecidableEq

/-- Result of a run: outcome, final store, trace of store operations. -/
structure RunResult where
  outcome : Outcome
  store : Store
  trace : List KubeOp

/-- The body of the generator loop at lines 220-284: fetch the token
(failure or panic aborts with no store access for this generator), build
the secret, list all namespaces, then run the namespace loop. -/
def processGenerator (f : Faults) (gen : SecretGenerator) (s : Store) : RunResult :=
  match gen.tokenGenFxn with
  | FetchResult.crash => ⟨Outcome.crashed, s, []⟩
  | FetchResult.err e => ⟨Outcome.failure e, s, []⟩
  | FetchResult.ok tok =>
    if f.listNamespacesFault then ⟨Outcome.failure "ListError", s, [KubeOp.listNamespaces]⟩
    else
      match processNamespaces f gen.secretName
          (generateSecretObj tok.accessToken tok.endpoint gen.isJSONCfg gen.secretName)
          s.namespaces s with
      | ⟨some e, st, tr⟩ => ⟨Outcome.failure e, st, KubeOp.listNamespaces :: tr⟩
      | ⟨none, st, tr⟩ => ⟨Outcome.success, st, KubeOp.listNamespaces :: tr⟩

/-- The generator loop of process: generators in order, first failure or
panic aborts the rest of the run. -/
def processGenerators (f : Faults) : List SecretGenerator → Store → RunResult
  | [], s => ⟨Outcome.success, s, []⟩
  | g :: rest, s =>
    match processGenerator f g s with
    | ⟨Outcome.success, st, tr⟩ =>
      match processGenerators f rest st with
      | ⟨o₂, st₂, tr₂⟩ => ⟨o₂, st₂, tr ++ tr₂⟩
    | ⟨o, st, tr⟩ => ⟨o, st, tr⟩

/-- Configured secret names (flags gcr-secret-name / aws-secret-name). -/
structure Config where
  gcrSecretName : String
  awsSecretName : String

/-- controller.process (lines 205-287): the GCR generator (legacy cfg
format) runs first, then the ECR generator (JSON format); each generator's
fetch result comes from its provider for this run. -/
def process (cfg : Config) (gcrFetch ecrFetch : FetchResult) (f : Faults) (s : Store) :
    RunResult :=
  processGenerators f
    [⟨gcrFetch, false, cfg.gcrSecretName⟩, ⟨ecrFetch, true, cfg.awsSecretName⟩] s

/-- What main does with a run result: whether the failure is logged at the
loop level and whether the process terminates. -/
structure MainStep where
  loggedFailure : Bool
  terminated : Bool
deriving DecidableEq

/-- Line 320 of the source: `c.process()` — the returned error is
discarded without logging and the loop proceeds to wait for the tick; a
panic still unwinds and kills the process. -/
def handleInitialRun : Outcome → MainStep
  | Outcome.crashed => ⟨false, true⟩
  | _ => ⟨false, false⟩

/-- Lines 326-328 of the source: a scheduled run's error goes to
log.Fatalf, which logs the failure and terminates the process. -/
def handleScheduledRun : Outcome → MainStep
  | Outcome.crashed => ⟨false, true⟩
  | Outcome.failure _ => ⟨true, true⟩
  | Outcome.success => ⟨false, false⟩

/-- Number of image-pull-secret references bearing a given name. -/
def countNamed (l : List LocalObjectReference) (n : String) : Nat :=
  (l.filter (fun r => r.name == n)).length

/-- The references whose names differ from both given names, in order. -/
def refsExcluding (l : List LocalObjectReference) (a b : String) :
    List LocalObjectReference :=
  l.filter (fun r => r.name != a && r.name != b)

/-- A fault oracle injecting no unexpected store errors. -/
def noFaults : Faults :=
  ⟨false, fun _ _ => false, fun _ => false, fun _ => false, fun _ _ => false, fun _ => false⟩

/-- Default flag values for the two secret names. -/
def cfg0 : Config := ⟨"gcr-secret", "awsecr-cred"⟩

/-- A one-namespace cluster: namespace "team-a" with an empty default
service account and no secrets. -/
def s0 : Store :=
  ⟨["team-a"], fun _ _ => none,
    fun a b => if a = "team-a" ∧ b = "default" then some ⟨[]⟩ else none⟩

/-- Like s0, but the default service account already lists the reference
"gcr-secret" twice. -/
def sDup : Store :=
  ⟨["team-a"], fun _ _ => none,
    fun a b =>
      if a = "team-a" ∧ b = "default" then some ⟨[⟨"gcr-secret"⟩, ⟨"gcr-secret"⟩]⟩
      else none⟩

/-- A pre-existing stale secret named gcr-secret. -/
def staleSecret : ApiSecret :=
  ⟨"gcr-secret", [(".dockercfg", "stale")], "kubernetes.io/dockercfg"⟩

/-- A cluster where namespace "team-a" already holds the gcr-secret and an
empty default service account. -/
def s4 : Store :=
  ⟨["team-a"],
    fun a b => if a = "team-a" ∧ b = "gcr-secret" then some staleSecret else none,
    fun a b => if a = "team-a" ∧ b = "default" then some ⟨[]⟩ else none⟩

/-- A fault oracle making only Secrets("team-a").Get("gcr-secret") fail
with an unexpected (non-not-found) store error. -/
def f4 : Faults :=
  ⟨false, fun a b => a == "team-a" && b == "gcr-secret", fun _ => false,
    fun _ => false, fun _ _ => false, fun _ => false⟩

/-- The materialized gcr secret used in concrete runs. -/
def gcrSecret0 : ApiSecret :=
  generateSecretObj "gtoken" "https://gcr.io" false "gcr-secret"

/-- The error component of a store write result. -/
def exceptErr : Except String Store → Option String
  | Except.error e => some e
  | Except.ok _ => none

lemma putSecret_serviceAccounts (s : Store) (ns : String) (sec : ApiSecret) :
    (putSecret s ns sec).serviceAccounts = s.serviceAccounts := rfl

lemma putSecret_namespaces (s : Store) (ns : String) (sec : ApiSecret) :
    (putSecret s ns sec).namespaces = s.namespaces := rfl

lemma putSecret_secrets (s : Store) (ns : String) (sec : ApiSecret) (a b : String) :
    (putSecret s ns sec).secrets a b =
      if a = ns ∧ b = sec.name then some sec else s.secrets a b := rfl

lemma putServiceAccount_secrets (s : Store) (ns n : String) (sa : ServiceAccount) :
    (putServiceAccount s ns n sa).secrets = s.secrets := rfl

lemma putServiceAccount_namespaces (s : Store) (ns n : String) (sa : ServiceAccount) :
    (putServiceAccount s ns n sa).namespaces = s.namespaces := rfl

lemma putServiceAccount_serviceAccounts (s : Store) (ns n : String) (sa : ServiceAccount)
    (a b : String) :
    (putServiceAccount s ns n sa).serviceAccounts a b =
      if a = ns ∧ b = n then some sa else s.serviceAccounts a b := rfl

lemma storeCreateSecret_ok {f : Faults} {s : Store} {ns : String} {sec : ApiSecret}
    {s' : Store} (h : storeCreateSecret f s ns sec = Except.ok s') :
    s' = putSecret s ns sec := by
  unfold storeCreateSecret at h
  split at h
  · exact absurd h (by simp)
  · split at h
    · exact absurd h (by simp)
    · injection h with h
      exact h.symm

lemma storeUpdateSecret_ok {f : Faults} {s : Store} {ns : String} {sec : ApiSecret}
    {s' : Store} (h : storeUpdateSecret f s ns sec = Except.ok s') :
    s' = putSecret s ns sec := by
  unfold storeUpdateSecret at h
  split at h
  · exact absurd h (by simp)
  · split at h
    · injection h with h
      exact h.symm
    · exact absurd h (by simp)

lemma storeUpdateServiceAccount_ok {f : Faults} {s : Store} {ns n : String}
    {sa : ServiceAccount} {s' : Store}
    (h : storeUpdateServiceAccount f s ns n sa = Except.ok s') :
    s' = putServiceAccount s ns n sa := by
  unfold storeUpdateServiceAccount at h
  split at h
  · exact absurd h (by simp)
  · split at h
    · injection h with h
      exact h.symm
    · exact absurd h (by simp)

lemma storeGetServiceAccount_ok {f : Faults} {s : Store} {ns n : String}
    {sa : ServiceAccount} (h : storeGetServiceAccount f s ns n = Except.ok sa) :
    lookupServiceAccount s ns n = some sa := by
  unfold storeGetServiceAccount at h
  split at h
  · exact absurd h (by simp)
  · split at h
    next sa' hsa' =>
      injection h with h
      exact h ▸ hsa'
    · exact absurd h (by simp)

/-- The secret phase either succeeds with exactly the new secret written
under (ns, newSecret.name), or fails leaving the store unchanged. -/
lemma secretPhase_cases (f : Faults) (n : String) (sec : ApiSecret) (ns : String) (s : Store) :
    ((secretPhase f n sec ns s).err = none ∧
      (secretPhase f n sec ns s).store = putSecret s ns sec) ∨
    ((secretPhase f n sec ns s).err ≠ none ∧ (secretPhase f n sec ns s).store = s) := by
  unfold secretPhase
  cases hg : storeGetSecret f s ns n with
  | error e =>
    cases hc : storeCreateSecret f s ns sec with
    | error e' => right; simp [hc]
    | ok s' => left; simp [hc, storeCreateSecret_ok hc]
  | ok v =>
    cases hu : storeUpdateSecret f s ns sec with
    | error e' => right; simp [hu]
    | ok s' => left; simp [hu, storeUpdateSecret_ok hu]

/-- The service-account phase either fails leaving the store unchanged, or
succeeds having read the default service account and written back its
upserted image-pull-secret list. -/
lemma saPhase_cases (f : Faults) (n ns : String) (s : Store) :
    ((saPhase f n ns s).err ≠ none ∧ (saPhase f n ns s).store = s) ∨
    ∃ sa, lookupServiceAccount s ns "default" = some sa ∧
      (saPhase f n ns s).err = none ∧
      (saPhase f n ns s).store =
        putServiceAccount s ns "default" ⟨upsertRefs sa.imagePullSecrets n⟩ := by
  unfold saPhase
  cases hg : storeGetServiceAccount f s ns "default" with
  | error e => left; simp
  | ok sa =>
    cases hu : storeUpdateServiceAccount f s ns "default" ⟨upsertRefs sa.imagePullSecrets n⟩ with
    | error e => left; simp [hu]
    | ok s' =>
      right
      exact ⟨sa, storeGetServiceAccount_ok hg, by simp [hu],
        by simp [hu, storeUpdateServiceAccount_ok hu]⟩

/-- Case analysis of one namespace's reconciliation: on failure the store
is either untouched or holds exactly the freshly written secret; on
success the store holds the new secret and the rewritten default service
account. -/
lemma reconcileNamespace_cases (f : Faults) (n : String) (sec : ApiSecret) (ns : String)
    (s : Store) :
    ((reconcileNamespace f n sec ns s).err ≠ none ∧
      ((reconcileNamespace f n sec ns s).store = s ∨
        (reconcileNamespace f n sec ns s).store = putSecret s ns sec)) ∨
    ((reconcileNamespace f n sec ns s).err = none ∧
      ∃ sa, lookupServiceAccount s ns "default" = some sa ∧
        (reconcileNamespace f n sec ns s).store =
          putServiceAccount (putSecret s ns sec) ns "default"
            ⟨upsertRefs sa.imagePullSecrets n⟩) := by
  unfold reconcileNamespace
  rcases secretPhase_cases f n sec ns s with ⟨h1, h2⟩ | ⟨h1, h2⟩
  · cases hsp : secretPhase f n sec ns s with
    | mk e st tr =>
      rw [hsp] at h1 h2
      simp only [StepResult.err] at h1
      simp only [StepResult.store] at h2
      subst h1
      subst h2
      rcases saPhase_cases f n ns (putSecret s ns sec) with ⟨g1, g2⟩ | ⟨sa, gsa, g1, g2⟩
      · cases hsa : saPhase f n ns (putSecret s ns sec) with
        | mk e₂ st₂ tr₂ =>
          rw [hsa] at g1 g2
          simp only [StepResult.err] at g1
          simp only [StepResult.store] at g2
          subst g2
          left
          dsimp only
          rw [hsa]
          exact ⟨g1, Or.inr rfl⟩
      · cases hsa : saPhase f n ns (putSecret s ns sec) with
        | mk e₂ st₂ tr₂ =>
          rw [hsa] at g1 g2
          simp only [StepResult.err] at g1
          simp only [StepResult.store] at g2
          subst g1
          subst g2
          right
          dsimp only
          rw [hsa]
          exact ⟨rfl, sa, gsa, rfl⟩
  · cases hsp : secretPhase f n sec ns s with
    | mk e st tr =>
      rw [hsp] at h1 h2
      simp only [StepResult.err] at h1
      simp only [StepResult.store] at h2
      subst h2
      cases e with
      | none => exact absurd rfl h1
      | some ev =>
        left
        dsimp only
        exact ⟨by simp, Or.inl rfl⟩

/-- On success, reconciliation read the default service account and the
final store is exactly the secret write followed by the service-account
write. -/
lemma reconcileNamespace_ok {f : Faults} {n : String} {sec : ApiSecret} {ns : String}
    {s : Store} (h : (reconcileNamespace f n sec ns s).err = none) :
    ∃ sa, lookupServiceAccount s ns "default" = some sa ∧
      (reconcileNamespace f n sec ns s).store =
        putServiceAccount (putSecret s ns sec) ns "default"
          ⟨upsertRefs sa.imagePullSecrets n⟩ := by
  rcases reconcileNamespace_cases f n sec ns s with ⟨h1, _⟩ | ⟨_, h2⟩
  · exact absurd h h1
  · exact h2

/-- Whatever happens, the store after one namespace's reconciliation is
the original store, the secret write alone, or both writes. -/
lemma reconcileNamespace_store_shape (f : Faults) (n : String) (sec : ApiSecret)
    (ns : String) (s : Store) :
    (reconcileNamespace f n sec ns s).store = s ∨
    (reconcileNamespace f n sec ns s).store = putSecret s ns sec ∨
    ∃ sa, lookupServiceAccount s ns "default" = some sa ∧
      (reconcileNamespace f n sec ns s).store =
        putServiceAccount (putSecret s ns sec) ns "default"
          ⟨upsertRefs sa.imagePullSecrets n⟩ := by
  rcases reconcileNamespace_cases f n sec ns s with ⟨_, h | h⟩ | ⟨_, h⟩
  · exact Or.inl h
  · exact Or.inr (Or.inl h)
  · exact Or.inr (Or.inr h)

lemma countNamed_cons (r : LocalObjectReference) (l : List LocalObjectReference)
    (n : String) :
    countNamed (r :: l) n = (if r.name = n then 1 else 0) + countNamed l n := by
  unfold countNamed
  rw [List.filter_cons]
  by_cases h : r.name = n
  · simp [h, Nat.add_comm]
  · simp [h]

lemma upsertRefs_cons_pos {r : LocalObjectReference} {n : String}
    (h : r.name = n) (rs : List LocalObjectReference) :
    upsertRefs (r :: rs) n = ⟨n⟩ :: rs := by
  simp [upsertRefs, h]

lemma upsertRefs_cons_neg {r : LocalObjectReference} {n : String}
    (h : ¬r.name = n) (rs : List LocalObjectReference) :
    upsertRefs (r :: rs) n = r :: upsertRefs rs n := by
  simp [upsertRefs, h]

/-- Upserting a name makes its count one when it was absent and leaves the
count unchanged when it was present. -/
lemma upsertRefs_count_self (l : List LocalObjectReference) (n : String) :
    countNamed (upsertRefs l n) n =
      if countNamed l n = 0 then 1 else countNamed l n := by
  induction l with
  | nil => simp [upsertRefs, countNamed]
  | cons r rs ih =>
    by_cases h : r.name = n
    · rw [upsertRefs_cons_pos h, countNamed_cons, countNamed_cons, h]
      simp only [if_true, eq_self_iff_true]
      rw [if_neg (by omega)]
    · rw [upsertRefs_cons_neg h, countNamed_cons, countNamed_cons, if_neg h, ih]
      simp

/-- Upserting one name never changes the count of a different name. -/
lemma upsertRefs_count_other (l : List LocalObjectReference) (n m : String)
    (h : m ≠ n) :
    countNamed (upsertRefs l n) m = countNamed l m := by
  induction l with
  | nil => simp [upsertRefs, countNamed, Ne.symm h]
  | cons r rs ih =>
    by_cases hr : r.name = n
    · rw [upsertRefs_cons_pos hr, countNamed_cons, countNamed_cons, hr]
    · rw [upsertRefs_cons_neg hr, countNamed_cons, countNamed_cons, ih]

/-- Upserting the same name twice is the same as upserting it once. -/
lemma upsertRefs_idem (l : List LocalObjectReference) (n : String) :
    upsertRefs (upsertRefs l n) n = upsertRefs l n := by
  induction l with
  | nil =>
    rw [show upsertRefs [] n = [(⟨n⟩ : LocalObjectReference)] from rfl]
    exact upsertRefs_cons_pos rfl []
  | cons r rs ih =>
    by_cases hr : r.name = n
    · rw [upsertRefs_cons_pos hr, upsertRefs_cons_pos rfl]
    · rw [upsertRefs_cons_neg hr, upsertRefs_cons_neg hr, ih]

/-- When the name is already present, the upsert is the identity: the
matched entry is overwritten with an equal entry and the scan breaks. -/
lemma upsertRefs_of_count_pos (l : List LocalObjectReference) (n : String)
    (h : countNamed l n ≠ 0) : upsertRefs l n = l := by
  induction l with
  | nil => simp [countNamed] at h
  | cons r rs ih =>
    by_cases hr : r.name = n
    · have hrn : r = ⟨n⟩ := by cases r with | mk rn => simp_all
      rw [upsertRefs_cons_pos hr, hrn]
    · have h' : countNamed rs n ≠ 0 := by
        rw [countNamed_cons, if_neg hr] at h
        simpa using h
      rw [upsertRefs_cons_neg hr, ih h']

/-- References named neither of the two given names pass through an upsert
of the first name verbatim and in order. -/
lemma upsertRefs_refsExcluding_left (l : List LocalObjectReference) (a b : String) :
    refsExcluding (upsertRefs l a) a b = refsExcluding l a b := by
  induction l with
  | nil =>
    rw [show upsertRefs [] a = [(⟨a⟩ : LocalObjectReference)] from rfl]
    simp [refsExcluding]
  | cons r rs ih =>
    by_cases hr : r.name = a
    · rw [upsertRefs_cons_pos hr]
      unfold refsExcluding
      rw [List.filter_cons, List.filter_cons]
      simp [hr]
    · rw [upsertRefs_cons_neg hr]
      unfold refsExcluding at *
      rw [List.filter_cons, List.filter_cons, ih]

/-- References named neither of the two given names pass through an upsert
of the second name verbatim and in order. -/
lemma upsertRefs_refsExcluding_right (l : List LocalObjectReference) (a b : String) :
    refsExcluding (upsertRefs l b) a b = refsExcluding l a b := by
  induction l with
  | nil =>
    rw [show upsertRefs [] b = [(⟨b⟩ : LocalObjectReference)] from rfl]
    simp [refsExcluding]
  | cons r rs ih =>
    by_cases hr : r.name = b
    · rw [upsertRefs_cons_pos hr]
      unfold refsExcluding
      rw [List.filter_cons, List.filter_cons]
      simp [hr]
    · rw [upsertRefs_cons_neg hr]
      unfold refsExcluding at *
      rw [List.filter_cons, List.filter_cons, ih]

/-- Reconciling one namespace never touches another namespace's secrets or
service accounts. -/
lemma reconcileNamespace_frame (f : Faults) (n : String) (sec : ApiSecret) (ns : String)
    (s : Store) (a : String) (h : a ≠ ns) :
    (∀ b, (reconcileNamespace f n sec ns s).store.secrets a b = s.secrets a b) ∧
    (∀ b, (reconcileNamespace f n sec ns s).store.serviceAccounts a b =
      s.serviceAccounts a b) := by
  rcases reconcileNamespace_store_shape f n sec ns s with h1 | h1 | ⟨sa, _, h1⟩ <;>
    rw [h1] <;>
    exact ⟨fun b => by simp [putSecret_secrets, putServiceAccount_secrets, h],
      fun b => by simp [putSecret_serviceAccounts, putServiceAccount_serviceAccounts, h]⟩

lemma reconcileNamespace_store_namespaces (f : Faults) (n : String) (sec : ApiSecret)
    (ns : String) (s : Store) :
    (reconcileNamespace f n sec ns s).store.namespaces = s.namespaces := by
  rcases reconcileNamespace_store_shape f n sec ns s with h1 | h1 | ⟨sa, _, h1⟩ <;>
    rw [h1] <;> rfl

/-- Reconciling one namespace only ever writes the new secret under the
new secret's name and only ever rewrites a stored service account by
upserting the secret name into its image-pull-secret list. -/
lemma reconcileNamespace_shape (f : Faults) (n : String) (sec : ApiSecret) (ns : String)
    (s : Store) :
    (∀ a b, (reconcileNamespace f n sec ns s).store.secrets a b = s.secrets a b ∨
      (b = sec.name ∧ (reconcileNamespace f n sec ns s).store.secrets a b = some sec)) ∧
    (∀ a b, (reconcileNamespace f n sec ns s).store.serviceAccounts a b =
        s.serviceAccounts a b ∨
      ∃ sa, s.serviceAccounts a b = some sa ∧
        (reconcileNamespace f n sec ns s).store.serviceAccounts a b =
          some ⟨upsertRefs sa.imagePullSecrets n⟩) := by
  rcases reconcileNamespace_store_shape f n sec ns s with h1 | h1 | ⟨sa, hsa, h1⟩ <;> rw [h1]
  · exact ⟨fun a b => Or.inl rfl, fun a b => Or.inl rfl⟩
  · refine ⟨fun a b => ?_, fun a b => Or.inl rfl⟩
    rw [putSecret_secrets]
    by_cases hc : a = ns ∧ b = sec.name
    · exact Or.inr ⟨hc.2, by rw [if_pos hc]⟩
    · exact Or.inl (by rw [if_neg hc])
  · constructor
    · intro a b
      rw [putServiceAccount_secrets, putSecret_secrets]
      by_cases hc : a = ns ∧ b = sec.name
      · exact Or.inr ⟨hc.2, by rw [if_pos hc]⟩
      · exact Or.inl (by rw [if_neg hc])
    · intro a b
      rw [putServiceAccount_serviceAccounts]
      by_cases hc : a = ns ∧ b = "default"
      · refine Or.inr ⟨sa, ?_, by rw [if_pos hc]⟩
        rw [hc.1, hc.2]
        exact hsa
      · exact Or.inl (by rw [if_neg hc]; rfl)

/-- Over a whole namespace loop, secrets change only at the new secret's
name (to the new secret) and service accounts change only by upserting the
secret name into a previously stored account's list; the namespace list is
never modified. -/
lemma processNamespaces_shape (f : Faults) (n : String) (sec : ApiSecret) :
    ∀ (l : List String) (s : Store),
    (processNamespaces f n sec l s).store.namespaces = s.namespaces ∧
    (∀ a b, (processNamespaces f n sec l s).store.secrets a b = s.secrets a b ∨
      (b = sec.name ∧ (processNamespaces f n sec l s).store.secrets a b = some sec)) ∧
    (∀ a b, (processNamespaces f n sec l s).store.serviceAccounts a b =
        s.serviceAccounts a b ∨
      ∃ sa, s.serviceAccounts a b = some sa ∧
        (processNamespaces f n sec l s).store.serviceAccounts a b =
          some ⟨upsertRefs sa.imagePullSecrets n⟩) := by
  intro l
  induction l with
  | nil => intro s; exact ⟨rfl, fun a b => Or.inl rfl, fun a b => Or.inl rfl⟩
  | cons ns rest ih =>
    intro s
    by_cases hks : ns = "kube-system"
    · simpa [processNamespaces, hks] using ih s
    · have hshape := reconcileNamespace_shape f n sec ns s
      have hnsp := reconcileNamespace_store_namespaces f n sec ns s
      cases hr : reconcileNamespace f n sec ns s with
      | mk e st tr =>
        rw [hr] at hshape hnsp
        cases e with
        | some ev =>
          simp only [processNamespaces, if_neg hks, hr]
          exact ⟨hnsp, hshape.1, hshape.2⟩
        | none =>
          have ihs := ih st
          cases hrest : processNamespaces f n sec rest st with
          | mk e₂ st₂ tr₂ =>
            rw [hrest] at ihs
            simp only [processNamespaces, if_neg hks, hr, hrest]
            refine ⟨ihs.1.trans hnsp, fun a b => ?_, fun a b => ?_⟩
            · rcases ihs.2.1 a b with h2 | ⟨hbn, h2⟩
              · rcases hshape.1 a b with h3 | ⟨hbn, h3⟩
                · exact Or.inl (h2.trans h3)
                · exact Or.inr ⟨hbn, h2.trans h3⟩
              · exact Or.inr ⟨hbn, h2⟩
            · rcases ihs.2.2 a b with h2 | ⟨sa₁, hsa₁, h2⟩
              · rcases hshape.2 a b with h3 | ⟨sa₀, hsa₀, h3⟩
                · exact Or.inl (h2.trans h3)
                · exact Or.inr ⟨sa₀, hsa₀, h2.trans h3⟩
              · rcases hshape.2 a b with h3 | ⟨sa₀, hsa₀, h3⟩
                · exact Or.inr ⟨sa₁, h3 ▸ hsa₁, h2⟩
                · have hsa₁' : sa₁ = ⟨upsertRefs sa₀.imagePullSecrets n⟩ :=
                    Option.some.inj (hsa₁.symm.trans h3)
                  refine Or.inr ⟨sa₀, hsa₀, ?_⟩
                  rw [h2, hsa₁']
                  simp [upsertRefs_idem]

/-- A namespace loop over a list not containing a namespace leaves that
namespace's secrets and service accounts untouched. -/
lemma processNamespaces_frame (f : Faults) (n : String) (sec : ApiSecret) :
    ∀ (l : List String) (s : Store) (a : String), a ∉ l →
    (∀ b, (processNamespaces f n sec l s).store.secrets a b = s.secrets a b) ∧
    (∀ b, (processNamespaces f n sec l s).store.serviceAccounts a b =
      s.serviceAccounts a b) := by
  intro l
  induction l with
  | nil => intro s a _; exact ⟨fun b => rfl, fun b => rfl⟩
  | cons ns rest ih =>
    intro s a ha
    have hane : a ≠ ns := fun h => ha (h ▸ List.mem_cons_self ns rest)
    have harest : a ∉ rest := fun h => ha (List.mem_cons_of_mem ns h)
    by_cases hks : ns = "kube-system"
    · simpa [processNamespaces, hks] using ih s a harest
    · have hfr := reconcileNamespace_frame f n sec ns s a hane
      cases hr : reconcileNamespace f n sec ns s with
      | mk e st tr =>
        rw [hr] at hfr
        cases e with
        | some ev =>
          simp only [processNamespaces, if_neg hks, hr]
          exact hfr
        | none =>
          have ihr := ih st a harest
          cases hrest : processNamespaces f n sec rest st with
          | mk e₂ st₂ tr₂ =>
            rw [hrest] at ihr
            simp only [processNamespaces, if_neg hks, hr, hrest]
            exact ⟨fun b => (ihr.1 b).trans (hfr.1 b), fun b => (ihr.2 b).trans (hfr.2 b)⟩

/-- In a successful namespace loop over duplicate-free namespaces, each
processed namespace ends up holding exactly the new secret under the
generator's secret name, and its default service account — which must have
existed beforehand — ends up with its original image-pull-secret list
upserted with that name. -/
lemma processNamespaces_mem_ok (f : Faults) (n : String) (sec : ApiSecret) :
    ∀ (l : List String) (s : Store) (ns : String), l.Nodup → ns ∈ l →
    ns ≠ "kube-system" →
    (processNamespaces f n sec l s).err = none →
    (∀ b, (processNamespaces f n sec l s).store.secrets ns b =
        if ns = ns ∧ b = sec.name then some sec else s.secrets ns b) ∧
    ∃ sa, lookupServiceAccount s ns "default" = some sa ∧
      (processNamespaces f n sec l s).store.serviceAccounts ns "default" =
        some ⟨upsertRefs sa.imagePullSecrets n⟩ := by
  intro l
  induction l with
  | nil => intro s ns _ hmem; exact absurd hmem (List.not_mem_nil ns)
  | cons m rest ih =>
    intro s ns hnd hmem hks herr
    have hnd' := List.nodup_cons.mp hnd
    by_cases hksm : m = "kube-system"
    · have hmem' : ns ∈ rest := by
        rcases List.mem_cons.mp hmem with h | h
        · exact absurd (h.trans hksm) hks
        · exact h
      rw [processNamespaces, if_pos hksm] at herr ⊢
      exact ih s ns hnd'.2 hmem' hks herr
    · cases hr : reconcileNamespace f n sec m s with
      | mk e st tr =>
        cases e with
        | some ev =>
          simp only [processNamespaces, if_neg hksm, hr] at herr
          exact absurd herr (by simp)
        | none =>
          cases hrest : processNamespaces f n sec rest st with
          | mk e₂ st₂ tr₂ =>
            have herr₂ : e₂ = none := by
              simp only [processNamespaces, if_neg hksm, hr, hrest] at herr
              simpa using herr
            subst herr₂
            simp only [processNamespaces, if_neg hksm, hr, hrest]
            rcases List.mem_cons.mp hmem with heq | hmemrest
            · subst heq
              have hok := reconcileNamespace_ok
                (show (reconcileNamespace f n sec ns s).err = none by rw [hr])
              rcases hok with ⟨sa, hsa, hstore⟩
              rw [hr] at hstore
              simp only [StepResult.store] at hstore
              subst hstore
              have hframe := processNamespaces_frame f n sec rest
                (putServiceAccount (putSecret s ns sec) ns "default"
                  ⟨upsertRefs sa.imagePullSecrets n⟩) ns hnd'.1
              rw [hrest] at hframe
              constructor
              · intro b
                rw [hframe.1 b, putServiceAccount_secrets, putSecret_secrets]
                simp
              · refine ⟨sa, hsa, ?_⟩
                rw [hframe.2 "default", putServiceAccount_serviceAccounts,
                  if_pos ⟨rfl, rfl⟩]
            · have hns_ne_m : ns ≠ m := fun hc => hnd'.1 (hc ▸ hmemrest)
              have ih' := ih st ns hnd'.2 hmemrest hks (by rw [hrest])
              rw [hrest] at ih'
              have hfr := reconcileNamespace_frame f n sec m s ns hns_ne_m
              rw [hr] at hfr
              constructor
              · intro b
                rw [ih'.1 b, hfr.1 b]
                simp
              · rcases ih'.2 with ⟨sa, hsa, hpost⟩
                refine ⟨sa, ?_, hpost⟩
                rw [← hsa]
                exact (hfr.2 "default").symm

lemma processGenerator_ok_eq (f : Faults) (tok : AuthToken) (j : Bool) (n : String)
    (s : Store) :
    processGenerator f ⟨FetchResult.ok tok, j, n⟩ s =
      if f.listNamespacesFault then ⟨Outcome.failure "ListError", s, [KubeOp.listNamespaces]⟩
      else
        match processNamespaces f n (generateSecretObj tok.accessToken tok.endpoint j n)
            s.namespaces s with
        | ⟨some e, st, tr⟩ => ⟨Outcome.failure e, st, KubeOp.listNamespaces :: tr⟩
        | ⟨none, st, tr⟩ => ⟨Outcome.success, st, KubeOp.listNamespaces :: tr⟩ := rfl

lemma processGenerator_err_eq (f : Faults) (e : String) (j : Bool) (n : String) (s : Store) :
    processGenerator f ⟨FetchResult.err e, j, n⟩ s = ⟨Outcome.failure e, s, []⟩ := rfl

lemma processGenerator_crash_eq (f : Faults) (j : Bool) (n : String) (s : Store) :
    processGenerator f ⟨FetchResult.crash, j, n⟩ s = ⟨Outcome.crashed, s, []⟩ := rfl

lemma processGenerators_nil (f : Faults) (s : Store) :
    processGenerators f [] s = ⟨Outcome.success, s, []⟩ := rfl

lemma processGenerators_cons (f : Faults) (g : SecretGenerator)
    (rest : List SecretGenerator) (s : Store) :
    processGenerators f (g :: rest) s =
      match processGenerator f g s with
      | ⟨Outcome.success, st, tr⟩ =>
        match processGenerators f rest st with
        | ⟨o₂, st₂, tr₂⟩ => ⟨o₂, st₂, tr ++ tr₂⟩
      | ⟨o, st, tr⟩ => ⟨o, st, tr⟩ := rfl

lemma process_eq (cfg : Config) (g e : FetchResult) (f : Faults) (s : Store) :
    process cfg g e f s =
      processGenerators f
        [⟨g, false, cfg.gcrSecretName⟩, ⟨e, true, cfg.awsSecretName⟩] s := rfl

/-- The namespace fold of the first (GCR) generator. -/
def gen1Fold (cfg : Config) (f : Faults) (tg : AuthToken) (s : Store) : StepResult :=
  processNamespaces f cfg.gcrSecretName
    (generateSecretObj tg.accessToken tg.endpoint false cfg.gcrSecretName) s.namespaces s

/-- The namespace fold of the second (ECR) generator, run from the store
the first generator left behind. -/
def gen2Fold (cfg : Config) (f : Faults) (te : AuthToken) (s₁ : Store) : StepResult :=
  processNamespaces f cfg.awsSecretName
    (generateSecretObj te.accessToken te.endpoint true cfg.awsSecretName) s₁.namespaces s₁

/-- A successful run with both fetches succeeding decomposes into the two
successive successful namespace folds, and the final store is the second
fold's store. -/
lemma process_ok_decomp (cfg : Config) (f : Faults) (s : Store) (tg te : AuthToken)
    (h : (process cfg (FetchResult.ok tg) (FetchResult.ok te) f s).outcome =
      Outcome.success) :
    f.listNamespacesFault = false ∧
    (gen1Fold cfg f tg s).err = none ∧
    (gen2Fold cfg f te (gen1Fold cfg f tg s).store).err = none ∧
    (process cfg (FetchResult.ok tg) (FetchResult.ok te) f s).store =
      (gen2Fold cfg f te (gen1Fold cfg f tg s).store).store := by
  unfold gen1Fold gen2Fold
  by_cases hlf : f.listNamespacesFault
  · rw [process_eq, processGenerators_cons, processGenerator_ok_eq, if_pos hlf] at h
    simp at h
  · refine ⟨by simp [hlf], ?_⟩
    rw [process_eq, processGenerators_cons, processGenerator_ok_eq, if_neg hlf] at h ⊢
    cases h1 : processNamespaces f cfg.gcrSecretName
        (generateSecretObj tg.accessToken tg.endpoint false cfg.gcrSecretName)
        s.namespaces s with
    | mk e₁ st₁ tr₁ =>
      simp only [h1] at h ⊢
      cases e₁ with
      | some ev => simp at h
      | none =>
        simp only [processGenerators_cons, processGenerator_ok_eq, if_neg hlf,
          processGenerators_nil] at h ⊢
        cases h2 : processNamespaces f cfg.awsSecretName
            (generateSecretObj te.accessToken te.endpoint true cfg.awsSecretName)
            st₁.namespaces st₁ with
        | mk e₂ st₂ tr₂ =>
          simp only [h2] at h ⊢
          cases e₂ with
          | some ev => simp at h
          | none => exact ⟨trivial, rfl, rfl⟩

lemma generateSecretObj_name (t e : String) (j : Bool) (n : String) :
    (generateSecretObj t e j n).name = n := by
  cases j <;> rfl

/-- Claim C3, amended: for every non-kube-system namespace of a
duplicate-free namespace list, after a successful reconciliation pass with
the two configured secret names distinct, the namespace holds both
freshly materialized secrets under their names, the default service
account existed beforehand, and its image-pull-secret list now carries
each configured name with count one if it was absent before and with its
previous count (duplicates preserved, NOT collapsed) if it was present;
entries with other names are untouched and keep their order. -/
theorem c3_amended (cfg : Config) (f : Faults) (s : Store) (tg te : AuthToken)
    (hnames : cfg.gcrSecretName ≠ cfg.awsSecretName)
    (hnodup : s.namespaces.Nodup)
    (hsucc : (process cfg (FetchResult.ok tg) (FetchResult.ok te) f s).outcome =
      Outcome.success)
    (ns : String) (hns : ns ∈ s.namespaces) (hks : ns ≠ "kube-system") :
    lookupSecret (process cfg (FetchResult.ok tg) (FetchResult.ok te) f s).store ns
        cfg.gcrSecretName =
      some (generateSecretObj tg.accessToken tg.endpoint false cfg.gcrSecretName) ∧
    lookupSecret (process cfg (FetchResult.ok tg) (FetchResult.ok te) f s).store ns
        cfg.awsSecretName =
      some (generateSecretObj te.accessToken te.endpoint true cfg.awsSecretName) ∧
    ∃ sa₀ sa₂, lookupServiceAccount s ns "default" = some sa₀ ∧
      lookupServiceAccount (process cfg (FetchResult.ok tg) (FetchResult.ok te) f s).store
          ns "default" = some sa₂ ∧
      countNamed sa₂.imagePullSecrets cfg.gcrSecretName =
        (if countNamed sa₀.imagePullSecrets cfg.gcrSecretName = 0 then 1
          else countNamed sa₀.imagePullSecrets cfg.gcrSecretName) ∧
      countNamed sa₂.imagePullSecrets cfg.awsSecretName =
        (if countNamed sa₀.imagePullSecrets cfg.awsSecretName = 0 then 1
          else countNamed sa₀.imagePullSecrets cfg.awsSecretName) ∧
      refsExcluding sa₂.imagePullSecrets cfg.gcrSecretName cfg.awsSecretName =
        refsExcluding sa₀.imagePullSecrets cfg.gcrSecretName cfg.awsSecretName := by
  obtain ⟨hlf, h1err, h2err, hstore⟩ := process_ok_decomp cfg f s tg te hsucc
  unfold gen2Fold at h2err hstore
  unfold gen1Fold at h1err h2err hstore
  have hnseq :=
    (processNamespaces_shape f cfg.gcrSecretName
      (generateSecretObj tg.accessToken tg.endpoint false cfg.gcrSecretName)
      s.namespaces s).1
  rw [hnseq] at h2err hstore
  have hfold1 := processNamespaces_mem_ok f cfg.gcrSecretName
    (generateSecretObj tg.accessToken tg.endpoint false cfg.gcrSecretName)
    s.namespaces s ns hnodup hns hks h1err
  have hfold2 := processNamespaces_mem_ok f cfg.awsSecretName
    (generateSecretObj te.accessToken te.endpoint true cfg.awsSecretName)
    s.namespaces
    ((processNamespaces f cfg.gcrSecretName
      (generateSecretObj tg.accessToken tg.endpoint false cfg.gcrSecretName)
      s.namespaces s).store)
    ns hnodup hns hks h2err
  rcases hfold1 with ⟨hsec1, sa₀, hsa₀, hsa1post⟩
  rcases hfold2 with ⟨hsec2, sa₁, hsa₁, hsa2post⟩
  have hsa₁eq : sa₁ = ⟨upsertRefs sa₀.imagePullSecrets cfg.gcrSecretName⟩ :=
    Option.some.inj (hsa₁.symm.trans hsa1post)
  rw [lookupSecret, lookupSecret, lookupServiceAccount, hstore]
  refine ⟨?_, ?_, sa₀, ⟨upsertRefs sa₁.imagePullSecrets cfg.awsSecretName⟩, hsa₀,
    hsa2post, ?_, ?_, ?_⟩
  · rw [hsec2 cfg.gcrSecretName,
      if_neg (fun hc => hnames (hc.2.trans (generateSecretObj_name _ _ _ _))),
      hsec1 cfg.gcrSecretName,
      if_pos ⟨rfl, (generateSecretObj_name _ _ _ _).symm⟩]
  · rw [hsec2 cfg.awsSecretName,
      if_pos ⟨rfl, (generateSecretObj_name _ _ _ _).symm⟩]
  · dsimp only
    rw [hsa₁eq]
    dsimp only
    rw [upsertRefs_count_other _ _ _ hnames, upsertRefs_count_self]
  · dsimp only
    rw [hsa₁eq]
    dsimp only
    rw [upsertRefs_count_self, upsertRefs_count_other _ _ _ (Ne.symm hnames)]
  · dsimp only
    rw [hsa₁eq]
    dsimp only
    rw [upsertRefs_refsExcluding_right, upsertRefs_refsExcluding_left]

lemma secretPhase_ok_store {f : Faults} {n : String} {sec : ApiSecret} {ns : String}
    {s : Store} (h : (secretPhase f n sec ns s).err = none) :
    (secretPhase f n sec ns s).store = putSecret s ns sec := by
  rcases secretPhase_cases f n sec ns s with ⟨_, h2⟩ | ⟨h1, _⟩
  · exact h2
  · exact absurd h h1

/-- Claim C6, amended: reconciling a namespace twice in succession with
the same secret content leaves both the stored secret and the default
service account exactly as the first reconciliation left them (the second
invocation never grows the image-pull-secret list), and the list carries
exactly one entry with the secret's name provided it carried at most one
beforehand; pre-existing duplicates survive both invocations. -/
theorem c6_amended (f : Faults) (s : Store) (ns n : String) (sec : ApiSecret)
    (hname : sec.name = n)
    (h₁ : (reconcileNamespace f n sec ns s).err = none)
    (h₂ : (reconcileNamespace f n sec ns (reconcileNamespace f n sec ns s).store).err =
      none) :
    lookupSecret
        (reconcileNamespace f n sec ns (reconcileNamespace f n sec ns s).store).store
        ns n =
      lookupSecret (reconcileNamespace f n sec ns s).store ns n ∧
    lookupServiceAccount
        (reconcileNamespace f n sec ns (reconcileNamespace f n sec ns s).store).store
        ns "default" =
      lookupServiceAccount (reconcileNamespace f n sec ns s).store ns "default" ∧
    ∀ sa₀, lookupServiceAccount s ns "default" = some sa₀ →
      countNamed sa₀.imagePullSecrets n ≤ 1 →
      ∀ sa₂, lookupServiceAccount
          (reconcileNamespace f n sec ns (reconcileNamespace f n sec ns s).store).store
          ns "default" = some sa₂ →
        countNamed sa₂.imagePullSecrets n = 1 := by
  obtain ⟨sa₀', hsa₀', hst1⟩ := reconcileNamespace_ok h₁
  obtain ⟨sa₁, hsa₁, hst2⟩ := reconcileNamespace_ok h₂
  have hsa₁eq : sa₁ = ⟨upsertRefs sa₀'.imagePullSecrets n⟩ := by
    rw [hst1] at hsa₁
    unfold lookupServiceAccount at hsa₁
    rw [putServiceAccount_serviceAccounts, if_pos ⟨rfl, rfl⟩] at hsa₁
    exact (Option.some.inj hsa₁).symm
  refine ⟨?_, ?_, ?_⟩
  · rw [hst2, hst1]
    unfold lookupSecret
    rw [putServiceAccount_secrets, putServiceAccount_secrets, putSecret_secrets,
      putSecret_secrets, if_pos ⟨rfl, hname.symm⟩, if_pos ⟨rfl, hname.symm⟩]
  · rw [hst2, hst1]
    unfold lookupServiceAccount
    rw [putServiceAccount_serviceAccounts, putServiceAccount_serviceAccounts,
      if_pos ⟨rfl, rfl⟩, if_pos ⟨rfl, rfl⟩, hsa₁eq]
    dsimp only
    rw [upsertRefs_idem]
  · intro sa₀ hsa₀ hcount sa₂ hsa₂
    have heq : sa₀' = sa₀ := Option.some.inj (hsa₀'.symm.trans hsa₀)
    subst heq
    rw [hst2] at hsa₂
    unfold lookupServiceAccount at hsa₂
    rw [putServiceAccount_serviceAccounts, if_pos ⟨rfl, rfl⟩] at hsa₂
    have hsa₂eq : sa₂ = ⟨upsertRefs sa₁.imagePullSecrets n⟩ := (Option.some.inj hsa₂).symm
    rw [hsa₂eq, hsa₁eq]
    dsimp only
    rw [upsertRefs_idem, upsertRefs_count_self]
    split
    · rfl
    · omega

/-- When the default-service-account lookup fails (unexpected store error
or absence) or the service-account write is doomed to fail, the
service-account phase reports an error and leaves the store exactly as it
received it. -/
lemma saPhase_err_of (f : Faults) (n ns : String) (t : Store)
    (h : f.getServiceAccountFault ns "default" = true ∨
      lookupServiceAccount t ns "default" = none ∨
      f.updateServiceAccountFault ns = true) :
    (saPhase f n ns t).err ≠ none ∧ (saPhase f n ns t).store = t := by
  unfold saPhase
  cases hg : storeGetServiceAccount f t ns "default" with
  | error e => exact ⟨by simp, rfl⟩
  | ok sa =>
    have hf : f.getServiceAccountFault ns "default" = false := by
      by_cases hf' : f.getServiceAccountFault ns "default"
      · rw [storeGetServiceAccount, if_pos hf'] at hg
        exact absurd hg (by simp)
      · simpa using hf'
    have hl : lookupServiceAccount t ns "default" = some sa :=
      storeGetServiceAccount_ok hg
    rcases h with h | h | h
    · rw [hf] at h
      exact absurd h (by simp)
    · rw [hl] at h
      exact absurd h (by simp)
    · have hu : storeUpdateServiceAccount f t ns "default"
          ⟨upsertRefs sa.imagePullSecrets n⟩ = Except.error "InternalError" := by
        rw [storeUpdateServiceAccount, if_pos h]
      dsimp only
      rw [hu]
      exact ⟨by simp, rfl⟩

/-- Claim C10: per-namespace reconciliation is not atomic — once the
secret phase has succeeded, a failure of the default-service-account
lookup (whether an unexpected store error or absence) or of the
service-account write aborts the namespace and the run, but the freshly
written secret stays in the store unrolled. -/
theorem c10_secret_not_rolled_back (f : Faults) (n : String) (sec : ApiSecret)
    (ns : String) (s : Store)
    (hsec : (secretPhase f n sec ns s).err = none)
    (hsa : f.getServiceAccountFault ns "default" = true ∨
      lookupServiceAccount s ns "default" = none ∨
      f.updateServiceAccountFault ns = true) :
    (reconcileNamespace f n sec ns s).err ≠ none ∧
    lookupSecret (reconcileNamespace f n sec ns s).store ns sec.name = some sec ∧
    (ns ≠ "kube-system" →
      ∀ rest, (processNamespaces f n sec (ns :: rest) s).err ≠ none) := by
  have hst := secretPhase_ok_store hsec
  have hsaerr := saPhase_err_of f n ns (putSecret s ns sec) (by
    rcases hsa with h | h | h
    · exact Or.inl h
    · exact Or.inr (Or.inl h)
    · exact Or.inr (Or.inr h))
  obtain ⟨e, he⟩ : ∃ e, (saPhase f n ns (putSecret s ns sec)).err = some e := by
    cases h : (saPhase f n ns (putSecret s ns sec)).err with
    | none => exact absurd h hsaerr.1
    | some ev => exact ⟨ev, rfl⟩
  cases hsp : secretPhase f n sec ns s with
  | mk e₁ st tr =>
    have he₁ : e₁ = none := by
      rw [hsp] at hsec
      simpa using hsec
    subst he₁
    have hstv : st = putSecret s ns sec := by
      rw [hsp] at hst
      simpa using hst
    subst hstv
    cases hsa2 : saPhase f n ns (putSecret s ns sec) with
    | mk e₂ st₂ tr₂ =>
      have he₂ : e₂ = some e := by
        rw [hsa2] at he
        simpa using he
      subst he₂
      have hst₂ : st₂ = putSecret s ns sec := by
        rw [hsa2] at hsaerr
        simpa using hsaerr.2
      subst hst₂
      have hrec : reconcileNamespace f n sec ns s =
          ⟨some e, putSecret s ns sec, tr ++ tr₂⟩ := by
        simp only [reconcileNamespace, hsp, hsa2]
      refine ⟨by rw [hrec]; simp, ?_, ?_⟩
      · rw [hrec]
        unfold lookupSecret
        rw [show (⟨some e, putSecret s ns sec, tr ++ tr₂⟩ : StepResult).store =
          putSecret s ns sec from rfl]
        rw [putSecret_secrets, if_pos ⟨rfl, rfl⟩]
      · intro hks rest
        simp only [processNamespaces, if_neg hks, hrec]
        simp

/-- Claim C4, amended: in step 1 of a namespace's reconciliation, ANY
error from the secret lookup — not-found or an unexpected store error
alike — sends the code down the create branch, and a successful lookup
sends it down the update branch; the lookup's own error is never what
propagates: the phase's error is exactly the create's (respectively the
update's) error, if any. -/
theorem c4_amended (f : Faults) (n : String) (sec : ApiSecret) (ns : String) (s : Store) :
    ((∃ e, storeGetSecret f s ns n = Except.error e) →
      (secretPhase f n sec ns s).trace =
        [KubeOp.getSecret ns n, KubeOp.createSecret ns sec] ∧
      (secretPhase f n sec ns s).err = exceptErr (storeCreateSecret f s ns sec)) ∧
    ((∃ v, storeGetSecret f s ns n = Except.ok v) →
      (secretPhase f n sec ns s).trace =
        [KubeOp.getSecret ns n, KubeOp.updateSecret ns sec] ∧
      (secretPhase f n sec ns s).err = exceptErr (storeUpdateSecret f s ns sec)) := by
  constructor
  · rintro ⟨e, he⟩
    unfold secretPhase
    rw [he]
    cases hc : storeCreateSecret f s ns sec with
    | error e' => simp [exceptErr, hc]
    | ok s' => simp [exceptErr, hc]
  · rintro ⟨v, hv⟩
    unfold secretPhase
    rw [hv]
    cases hu : storeUpdateSecret f s ns sec with
    | error e' => simp [exceptErr, hu]
    | ok s' => simp [exceptErr, hu]

/-- When the second generator's fetch fails, the run performs no store
access after the failing fetch (the final store is the first generator's
store) and the run never reports success. -/
lemma process_second_err (cfg : Config) (f : Faults) (s : Store) (gcr : FetchResult)
    (e : String) :
    (process cfg gcr (FetchResult.err e) f s).store =
      (processGenerator f ⟨gcr, false, cfg.gcrSecretName⟩ s).store ∧
    (process cfg gcr (FetchResult.err e) f s).outcome ≠ Outcome.success := by
  rw [process_eq, processGenerators_cons]
  cases hg : processGenerator f ⟨gcr, false, cfg.gcrSecretName⟩ s with
  | mk o st tr =>
    cases o with
    | success =>
      simp [processGenerators_cons, processGenerator_err_eq, processGenerators_nil]
    | failure ev => simp
    | crashed => simp

/-- Claim C1, amended: within a run, each generator's store writes happen
only after that generator's own fetch succeeded: if the FIRST fetch fails
the run performs no store access at all and leaves the store untouched,
and if the SECOND fetch fails nothing is written after that failure — but
the first generator's completed writes remain in place (the run as a
whole is not atomic across generators). -/
theorem c1_amended (cfg : Config) (f : Faults) (s : Store) (e : String)
    (ecr gcr : FetchResult) :
    (process cfg (FetchResult.err e) ecr f s).store = s ∧
    (process cfg (FetchResult.err e) ecr f s).trace = [] ∧
    (process cfg (FetchResult.err e) ecr f s).outcome = Outcome.failure e ∧
    (process cfg gcr (FetchResult.err e) f s).store =
      (processGenerator f ⟨gcr, false, cfg.gcrSecretName⟩ s).store :=
  ⟨rfl, rfl, rfl, (process_second_err cfg f s gcr e).1⟩

/-- Claim C2, amended: a remote-call error makes the ECR provider return
that error, after which the run makes no further store access and never
succeeds — but a response with zero authorization entries makes the
provider crash (Go slice-index panic), not return a ProviderError; and in
either case the first generator may already have modified namespaces
earlier in the same run. -/
theorem c2_amended (e : String) (cfg : Config) (f : Faults) (s : Store)
    (gcr : FetchResult) :
    getECRAuthorizationKey (Except.error e) = FetchResult.err e ∧
    getECRAuthorizationKey (Except.ok ⟨[]⟩) = FetchResult.crash ∧
    (process cfg gcr (getECRAuthorizationKey (Except.error e)) f s).store =
      (processGenerator f ⟨gcr, false, cfg.gcrSecretName⟩ s).store ∧
    (process cfg gcr (getECRAuthorizationKey (Except.error e)) f s).outcome ≠
      Outcome.success := by
  have hecr : getECRAuthorizationKey (Except.error e) = FetchResult.err e := rfl
  rw [hecr]
  exact ⟨rfl, rfl, (process_second_err cfg f s gcr e).1, (process_second_err cfg f s gcr e).2⟩

lemma secretPhase_trace (f : Faults) (n : String) (sec : ApiSecret) (ns : String)
    (s : Store) :
    ∀ op ∈ (secretPhase f n sec ns s).trace, op.targetNamespace = some ns := by
  unfold secretPhase
  cases hg : storeGetSecret f s ns n with
  | error e =>
    cases hc : storeCreateSecret f s ns sec with
    | error e' =>
      intro op hop
      simp at hop
      rcases hop with rfl | rfl <;> rfl
    | ok s' =>
      intro op hop
      simp at hop
      rcases hop with rfl | rfl <;> rfl
  | ok v =>
    cases hu : storeUpdateSecret f s ns sec with
    | error e' =>
      intro op hop
      simp at hop
      rcases hop with rfl | rfl <;> rfl
    | ok s' =>
      intro op hop
      simp at hop
      rcases hop with rfl | rfl <;> rfl

lemma saPhase_trace (f : Faults) (n ns : String) (s : Store) :
    ∀ op ∈ (saPhase f n ns s).trace, op.targetNamespace = some ns := by
  unfold saPhase
  cases hg : storeGetServiceAccount f s ns "default" with
  | error e =>
    intro op hop
    simp at hop
    subst hop
    rfl
  | ok sa =>
    cases hu : storeUpdateServiceAccount f s ns "default"
        ⟨upsertRefs sa.imagePullSecrets n⟩ with
    | error e =>
      intro op hop
      simp [hu] at hop
      rcases hop with rfl | rfl <;> rfl
    | ok s' =>
      intro op hop
      simp [hu] at hop
      rcases hop with rfl | rfl <;> rfl

/-- Every store operation a namespace's reconciliation issues is scoped to
that namespace. -/
lemma reconcileNamespace_trace (f : Faults) (n : String) (sec : ApiSecret) (ns : String)
    (s : Store) :
    ∀ op ∈ (reconcileNamespace f n sec ns s).trace, op.targetNamespace = some ns := by
  unfold reconcileNamespace
  cases hsp : secretPhase f n sec ns s with
  | mk e st tr =>
    have htr : ∀ op ∈ tr, op.targetNamespace = some ns := by
      have h := secretPhase_trace f n sec ns s
      rw [hsp] at h
      exact h
    cases e with
    | some ev => exact htr
    | none =>
      intro op hop
      rcases List.mem_append.mp hop with h | h
      · exact htr op h
      · exact saPhase_trace f n ns st op h

/-- No operation issued by the namespace loop is scoped to kube-system. -/
lemma processNamespaces_trace (f : Faults) (n : String) (sec : ApiSecret) :
    ∀ (l : List String) (s : Store) (op : KubeOp),
      op ∈ (processNamespaces f n sec l s).trace →
      op.targetNamespace ≠ some "kube-system" := by
  intro l
  induction l with
  | nil =>
    intro s op hop
    simp [processNamespaces] at hop
  | cons ns rest ih =>
    intro s op hop
    by_cases hks : ns = "kube-system"
    · rw [processNamespaces, if_pos hks] at hop
      exact ih s op hop
    · rw [processNamespaces, if_neg hks] at hop
      cases hr : reconcileNamespace f n sec ns s with
      | mk e st tr =>
        have htr : ∀ op ∈ tr, op.targetNamespace = some ns := by
          have h := reconcileNamespace_trace f n sec ns s
          rw [hr] at h
          exact h
        rw [hr] at hop
        cases e with
        | some ev =>
          rw [htr op hop]
          simp [hks]
        | none =>
          rcases List.mem_append.mp hop with h | h
          · rw [htr op h]
            simp [hks]
          · exact ih st op h

/-- No operation issued by one generator's pass is scoped to kube-system. -/
lemma processGenerator_trace (f : Faults) (gen : SecretGenerator) (s : Store) :
    ∀ op ∈ (processGenerator f gen s).trace,
      op.targetNamespace ≠ some "kube-system" := by
  obtain ⟨fr, j, n⟩ := gen
  cases fr with
  | crash =>
    intro op hop
    simp [processGenerator_crash_eq] at hop
  | err e =>
    intro op hop
    simp [processGenerator_err_eq] at hop
  | ok tok =>
    rw [processGenerator_ok_eq]
    by_cases hlf : f.listNamespacesFault
    · rw [if_pos hlf]
      intro op hop
      simp at hop
      subst hop
      simp [KubeOp.targetNamespace]
    · rw [if_neg hlf]
      cases hpn : processNamespaces f n (generateSecretObj tok.accessToken tok.endpoint j n)
          s.namespaces s with
      | mk e st tr =>
        have htr : ∀ op ∈ tr, op.targetNamespace ≠ some "kube-system" := by
          intro op hop
          exact processNamespaces_trace f n _ s.namespaces s op (by rw [hpn]; exact hop)
        cases e with
        | some ev =>
          intro op hop
          rcases List.mem_cons.mp hop with rfl | h
          · simp [KubeOp.targetNamespace]
          · exact htr op h
        | none =>
          intro op hop
          rcases List.mem_cons.mp hop with rfl | h
          · simp [KubeOp.targetNamespace]
          · exact htr op h

/-- No operation issued by the generator loop is scoped to kube-system. -/
lemma processGenerators_trace (f : Faults) :
    ∀ (gens : List SecretGenerator) (s : Store) (op : KubeOp),
      op ∈ (processGenerators f gens s).trace →
      op.targetNamespace ≠ some "kube-system" := by
  intro gens
  induction gens with
  | nil =>
    intro s op hop
    simp [processGenerators_nil] at hop
  | cons g rest ih =>
    intro s op hop
    rw [processGenerators_cons] at hop
    cases hg : processGenerator f g s with
    | mk o st tr =>
      have htr : ∀ op ∈ tr, op.targetNamespace ≠ some "kube-system" := by
        have h := processGenerator_trace f g s
        rw [hg] at h
        exact h
      rw [hg] at hop
      cases o with
      | success =>
        rcases List.mem_append.mp hop with h | h
        · exact htr op h
        · exact ih st op h
      | failure ev => exact htr op hop
      | crashed => exact htr op hop

/-- Claim C7: in every run, whatever the providers, faults, and store
contents, no secret get/create/update and no service-account get/update is
ever issued in a namespace named kube-system — the namespace is skipped
before any per-namespace store access. -/
theorem c7_kube_system_untouched (cfg : Config) (g e : FetchResult) (f : Faults)
    (s : Store) :
    ∀ op ∈ (process cfg g e f s).trace, op.targetNamespace ≠ some "kube-system" := by
  intro op hop
  exact processGenerators_trace f
    [⟨g, false, cfg.gcrSecretName⟩, ⟨e, true, cfg.awsSecretName⟩] s op hop

/-- Claim C5: generateSecretObj is total and produces, for the legacy
format, a kubernetes.io/dockercfg secret whose single ".dockercfg" entry
is exactly the bytes of the dockercfg template instantiated at the
endpoint and token, and, for the JSON format, a
kubernetes.io/dockerconfigjson secret whose single ".dockerconfigjson"
entry is exactly the bytes of the dockerconfigjson template so
instantiated. -/
theorem c5_materialize (token endpoint name : String) :
    generateSecretObj token endpoint false name =
      ⟨name,
        [(".dockercfg",
          "\x7b\"" ++ endpoint ++ "\":\x7b\"username\":\"oauth2accesstoken\",\"password\":\""
            ++ token ++ "\",\"email\":\"none\"\x7d\x7d")],
        "kubernetes.io/dockercfg"⟩ ∧
    generateSecretObj token endpoint true name =
      ⟨name,
        [(".dockerconfigjson",
          "\x7b\"auths\":\x7b\"" ++ endpoint ++ "\":\x7b\"auth\":\"" ++ token
            ++ "\",\"email\":\"none\"\x7d\x7d\x7d")],
        "kubernetes.io/dockerconfigjson"⟩ :=
  ⟨rfl, rfl⟩

/-- Claim C9: when the ECR token service responds successfully with one or
more authorization entries, the provider returns the first entry's
authorization token and proxy endpoint and ignores all further entries. -/
theorem c9_first_entry (d : AuthorizationData) (rest : List AuthorizationData) :
    getECRAuthorizationKey (Except.ok ⟨d :: rest⟩) =
      FetchResult.ok ⟨d.authorizationToken, d.proxyEndpoint⟩ :=
  rfl

/-- Claim C8, counterexample: when the initial run fails, main discards
the error — the failure is NOT logged (and the process indeed does not
terminate), contradicting the claim that it is logged. -/
theorem c8_counterexample :
    handleInitialRun (Outcome.failure "boom") = ⟨false, false⟩ :=
  rfl

/-- Claim C8, amended: an initial-run failure is silently ignored (neither
logged at the loop level nor fatal), while a failure of any scheduled run
is logged fatally and terminates the process. -/
theorem c8_amended (e : String) :
    handleInitialRun (Outcome.failure e) = ⟨false, false⟩ ∧
    handleScheduledRun (Outcome.failure e) = ⟨true, true⟩ ∧
    handleScheduledRun Outcome.success = ⟨false, false⟩ :=
  ⟨rfl, rfl, rfl⟩

/-- Claim C1, counterexample: in a run where the first (GCR) fetch
succeeds and the second (ECR) fetch fails, the run reports the failure,
yet namespace "team-a" — which held no gcr-secret before — now holds the
freshly materialized secret: a provider failure does not leave the run's
cluster state unmodified. -/
theorem c1_counterexample :
    (process cfg0 (FetchResult.ok ⟨"gtoken", "https://gcr.io"⟩)
        (FetchResult.err "RequestError") noFaults s0).outcome =
      Outcome.failure "RequestError" ∧
    lookupSecret s0 "team-a" "gcr-secret" = none ∧
    lookupSecret
        (process cfg0 (FetchResult.ok ⟨"gtoken", "https://gcr.io"⟩)
          (FetchResult.err "RequestError") noFaults s0).store
        "team-a" "gcr-secret" = some gcrSecret0 := by
  refine ⟨rfl, rfl, rfl⟩

/-- Claim C2, counterexample: an ECR response with zero authorization
entries makes the provider crash (Go panics indexing the empty slice)
rather than return a ProviderError, the surrounding run crashes rather
than reporting failure, and namespace "team-a" was touched anyway: the
first generator already wrote the gcr-secret before the ECR fetch ran. -/
theorem c2_counterexample :
    getECRAuthorizationKey (Except.ok ⟨[]⟩) = FetchResult.crash ∧
    (process cfg0 (FetchResult.ok ⟨"gtoken", "https://gcr.io"⟩)
        (getECRAuthorizationKey (Except.ok ⟨[]⟩)) noFaults s0).outcome =
      Outcome.crashed ∧
    lookupSecret
        (process cfg0 (FetchResult.ok ⟨"gtoken", "https://gcr.io"⟩)
          (getECRAuthorizationKey (Except.ok ⟨[]⟩)) noFaults s0).store
        "team-a" "gcr-secret" = some gcrSecret0 := by
  refine ⟨rfl, rfl, rfl⟩

/-- Claim C3, counterexample: namespace "team-a" starts with the reference
"gcr-secret" listed twice; the reconciliation pass succeeds, yet the
default service account still lists "gcr-secret" twice afterwards —
duplicates are not collapsed to one. -/
theorem c3_counterexample :
    (process cfg0 (FetchResult.ok ⟨"gtoken", "https://gcr.io"⟩)
        (FetchResult.ok ⟨"etoken", "https://ecr.example"⟩) noFaults sDup).outcome =
      Outcome.success ∧
    lookupServiceAccount
        (process cfg0 (FetchResult.ok ⟨"gtoken", "https://gcr.io"⟩)
          (FetchResult.ok ⟨"etoken", "https://ecr.example"⟩) noFaults sDup).store
        "team-a" "default" =
      some ⟨[⟨"gcr-secret"⟩, ⟨"gcr-secret"⟩, ⟨"awsecr-cred"⟩]⟩ ∧
    countNamed [⟨"gcr-secret"⟩, ⟨"gcr-secret"⟩, ⟨"awsecr-cred"⟩] "gcr-secret" = 2 := by
  refine ⟨rfl, rfl, rfl⟩

/-- Claim C4, counterexample: the secret "gcr-secret" exists in
"team-a" but its Get fails with an unexpected InternalError (not
not-found); the code nevertheless attempts a Create, and the error that
aborts the namespace is the Create's AlreadyExists — the Get's unexpected
error is not what propagates, and the create branch is not reserved for
the not-found case. -/
theorem c4_counterexample :
    (secretPhase f4 "gcr-secret" gcrSecret0 "team-a" s4).trace =
      [KubeOp.getSecret "team-a" "gcr-secret", KubeOp.createSecret "team-a" gcrSecret0] ∧
    (secretPhase f4 "gcr-secret" gcrSecret0 "team-a" s4).err = some "AlreadyExists" := by
  refine ⟨rfl, rfl⟩

/-- Claim C6, counterexample: with the duplicate-bearing service account
of sDup, reconciling namespace "team-a" twice with the same secret content
succeeds both times, yet the image-pull-secret list still carries
"gcr-secret" twice — not exactly one entry. -/
theorem c6_counterexample :
    (reconcileNamespace noFaults "gcr-secret" gcrSecret0 "team-a" sDup).err = none ∧
    (reconcileNamespace noFaults "gcr-secret" gcrSecret0 "team-a"
        (reconcileNamespace noFaults "gcr-secret" gcrSecret0 "team-a" sDup).store).err =
      none ∧
    lookupServiceAccount
        (reconcileNamespace noFaults "gcr-secret" gcrSecret0 "team-a"
          (reconcileNamespace noFaults "gcr-secret" gcrSecret0 "team-a" sDup).store).store
        "team-a" "default" =
      some ⟨[⟨"gcr-secret"⟩, ⟨"gcr-secret"⟩]⟩ := by
  refine ⟨rfl, rfl, rfl⟩

/-- A fault oracle making only ServiceAccounts("team-a").Update fail with
an unexpected store error (the service-account write, not the lookup). -/
def f10 : Faults :=
  ⟨false, fun _ _ => false, fun _ => false, fun _ => false,
    fun _ _ => false, fun a => a == "team-a"⟩

/-- Witness for c3_amended at a concrete one-namespace cluster. -/
theorem c3_amended_witness :
    cfg0.gcrSecretName ≠ cfg0.awsSecretName ∧
    s0.namespaces.Nodup ∧
    (process cfg0 (FetchResult.ok ⟨"gtoken", "https://gcr.io"⟩)
        (FetchResult.ok ⟨"etoken", "https://ecr.example"⟩) noFaults s0).outcome =
      Outcome.success ∧
    "team-a" ∈ s0.namespaces ∧
    ("team-a" : String) ≠ "kube-system" ∧
    (lookupSecret (process cfg0 (FetchResult.ok ⟨"gtoken", "https://gcr.io"⟩)
          (FetchResult.ok ⟨"etoken", "https://ecr.example"⟩) noFaults s0).store "team-a"
        cfg0.gcrSecretName =
      some (generateSecretObj "gtoken" "https://gcr.io" false cfg0.gcrSecretName) ∧
    lookupSecret (process cfg0 (FetchResult.ok ⟨"gtoken", "https://gcr.io"⟩)
          (FetchResult.ok ⟨"etoken", "https://ecr.example"⟩) noFaults s0).store "team-a"
        cfg0.awsSecretName =
      some (generateSecretObj "etoken" "https://ecr.example" true cfg0.awsSecretName) ∧
    ∃ sa₀ sa₂, lookupServiceAccount s0 "team-a" "default" = some sa₀ ∧
      lookupServiceAccount (process cfg0 (FetchResult.ok ⟨"gtoken", "https://gcr.io"⟩)
          (FetchResult.ok ⟨"etoken", "https://ecr.example"⟩) noFaults s0).store
          "team-a" "default" = some sa₂ ∧
      countNamed sa₂.imagePullSecrets cfg0.gcrSecretName =
        (if countNamed sa₀.imagePullSecrets cfg0.gcrSecretName = 0 then 1
          else countNamed sa₀.imagePullSecrets cfg0.gcrSecretName) ∧
      countNamed sa₂.imagePullSecrets cfg0.awsSecretName =
        (if countNamed sa₀.imagePullSecrets cfg0.awsSecretName = 0 then 1
          else countNamed sa₀.imagePullSecrets cfg0.awsSecretName) ∧
      refsExcluding sa₂.imagePullSecrets cfg0.gcrSecretName cfg0.awsSecretName =
        refsExcluding sa₀.imagePullSecrets cfg0.gcrSecretName cfg0.awsSecretName) :=
  ⟨by decide, by decide, by decide, by decide, by decide,
    c3_amended cfg0 noFaults s0 ⟨"gtoken", "https://gcr.io"⟩ ⟨"etoken", "https://ecr.example"⟩
      (by decide) (by decide) (by decide) "team-a" (by decide) (by decide)⟩

/-- Witness for c6_amended at a concrete namespace with an empty default
service account. -/
theorem c6_amended_witness :
    gcrSecret0.name = "gcr-secret" ∧
    (reconcileNamespace noFaults "gcr-secret" gcrSecret0 "team-a" s0).err = none ∧
    (reconcileNamespace noFaults "gcr-secret" gcrSecret0 "team-a"
        (reconcileNamespace noFaults "gcr-secret" gcrSecret0 "team-a" s0).store).err =
      none ∧
    (lookupSecret
        (reconcileNamespace noFaults "gcr-secret" gcrSecret0 "team-a"
          (reconcileNamespace noFaults "gcr-secret" gcrSecret0 "team-a" s0).store).store
        "team-a" "gcr-secret" =
      lookupSecret (reconcileNamespace noFaults "gcr-secret" gcrSecret0 "team-a" s0).store
        "team-a" "gcr-secret" ∧
    lookupServiceAccount
        (reconcileNamespace noFaults "gcr-secret" gcrSecret0 "team-a"
          (reconcileNamespace noFaults "gcr-secret" gcrSecret0 "team-a" s0).store).store
        "team-a" "default" =
      lookupServiceAccount
        (reconcileNamespace noFaults "gcr-secret" gcrSecret0 "team-a" s0).store
        "team-a" "default" ∧
    ∀ sa₀, lookupServiceAccount s0 "team-a" "default" = some sa₀ →
      countNamed sa₀.imagePullSecrets "gcr-secret" ≤ 1 →
      ∀ sa₂, lookupServiceAccount
          (reconcileNamespace noFaults "gcr-secret" gcrSecret0 "team-a"
            (reconcileNamespace noFaults "gcr-secret" gcrSecret0 "team-a" s0).store).store
          "team-a" "default" = some sa₂ →
        countNamed sa₂.imagePullSecrets "gcr-secret" = 1) :=
  ⟨rfl, by decide, by decide,
    c6_amended noFaults s0 "team-a" "gcr-secret" gcrSecret0 rfl (by decide) (by decide)⟩

/-- Witness for c10_secret_not_rolled_back: a faulted service-account
write aborts the namespace but the written secret stays. -/
theorem c10_witness :
    (secretPhase f10 "gcr-secret" gcrSecret0 "team-a" s0).err = none ∧
    f10.updateServiceAccountFault "team-a" = true ∧
    ((reconcileNamespace f10 "gcr-secret" gcrSecret0 "team-a" s0).err ≠ none ∧
    lookupSecret (reconcileNamespace f10 "gcr-secret" gcrSecret0 "team-a" s0).store
        "team-a" gcrSecret0.name = some gcrSecret0 ∧
    (("team-a" : String) ≠ "kube-system" →
      ∀ rest, (processNamespaces f10 "gcr-secret" gcrSecret0 ("team-a" :: rest) s0).err ≠
        none)) :=
  ⟨by decide, by decide,
    c10_secret_not_rolled_back f10 "gcr-secret" gcrSecret0 "team-a" s0 (by decide)
      (Or.inr (Or.inr (by decide)))⟩

/-- Witness for c4_amended: with the secret present and its Get failing
with an unexpected error, the create branch runs and the phase reports the
create's AlreadyExists error. -/
theorem c4_amended_witness :
    storeGetSecret f4 s4 "team-a" "gcr-secret" = Except.error "InternalError" ∧
    ((secretPhase f4 "gcr-secret" gcrSecret0 "team-a" s4).trace =
      [KubeOp.getSecret "team-a" "gcr-secret", KubeOp.createSecret "team-a" gcrSecret0] ∧
    (secretPhase f4 "gcr-secret" gcrSecret0 "team-a" s4).err =
      exceptErr (storeCreateSecret f4 s4 "team-a" gcrSecret0)) :=
  ⟨rfl, (c4_amended f4 "gcr-secret" gcrSecret0 "team-a" s4).1 ⟨"InternalError", rfl⟩⟩

/-- Witness for c2_amended at a concrete cluster and error. -/
theorem c2_amended_witness :
    getECRAuthorizationKey (Except.error "RequestError") = FetchResult.err "RequestError" ∧
    getECRAuthorizationKey (Except.ok ⟨[]⟩) = FetchResult.crash ∧
    (process cfg0 (FetchResult.ok ⟨"gtoken", "https://gcr.io"⟩)
        (getECRAuthorizationKey (Except.error "RequestError")) noFaults s0).store =
      (processGenerator noFaults
        ⟨FetchResult.ok ⟨"gtoken", "https://gcr.io"⟩, false, cfg0.gcrSecretName⟩ s0).store ∧
    (process cfg0 (FetchResult.ok ⟨"gtoken", "https://gcr.io"⟩)
        (getECRAuthorizationKey (Except.error "RequestError")) noFaults s0).outcome ≠
      Outcome.success :=
  c2_amended "RequestError" cfg0 noFaults s0 (FetchResult.ok ⟨"gtoken", "https://gcr.io"⟩)

/-- Witness for c7_kube_system_untouched at a concrete run and a concrete
operation of its trace. -/
theorem c7_witness :
    KubeOp.listNamespaces ∈ (process cfg0 (FetchResult.ok ⟨"gtoken", "https://gcr.io"⟩)
        (FetchResult.ok ⟨"etoken", "https://ecr.example"⟩) noFaults s0).trace ∧
    KubeOp.listNamespaces.targetNamespace ≠ some "kube-system" :=
  ⟨by decide,
    c7_kube_system_untouched cfg0 (FetchResult.ok ⟨"gtoken", "https://gcr.io"⟩)
      (FetchResult.ok ⟨"etoken", "https://ecr.example"⟩) noFaults s0
      KubeOp.listNamespaces (by decide)⟩

end RegistryCreds
